import Mathlib

/-!
Verification development for the image_to_pointcloud repository: a shallow
embedding of its four pipeline scripts (frame extractor, calibrator,
checkerboard target generator, corner visualizer) and theorems settling the
frozen claims about them.  Machine integers are modelled as Nat, Python
floats as exact rationals or reals, and the external OpenCV / reportlab
collaborators as explicit function parameters.
-/

namespace FrameExtractor

/-- Number of frames actually extracted from one video: if the video has
fewer frames than requested, all of them are taken, otherwise the requested
count (source: frame_extractor.py lines 77-81). -/
def frames_to_extract_current (total_frames frame_count : Nat) : Nat :=
  if total_frames < frame_count then total_frames else frame_count

/-- Sampling interval, source line 86: math.floor(total_frames /
frames_to_extract_current), which on nonnegative integers is Nat division. -/
def interval (total_frames frame_count : Nat) : Nat :=
  total_frames / frames_to_extract_current total_frames frame_count

/-- The list comprehension of source line 88:
[min(i * interval, total_frames - 1) for i in range(frames_to_extract_current)]. -/
def raw_indices (total_frames frame_count : Nat) : List Nat :=
  (List.range (frames_to_extract_current total_frames frame_count)).map
    fun i => min (i * interval total_frames frame_count) (total_frames - 1)

/-- In-place update frame_indices[-1] = v of source line 98: replace the
last element of a list. -/
def set_last : List Nat → Nat → List Nat
  | [], _ => []
  | [_], v => [v]
  | x :: y :: rest, v => x :: set_last (y :: rest) v

/-- The full frame-index computation of source lines 84-98: the sampled
indices for one video, including the forced inclusion of the final frame
when more than one frame is extracted. -/
def frame_indices (total_frames frame_count : Nat) : List Nat :=
  if 1 < frames_to_extract_current total_frames frame_count then
    if 1 < total_frames ∧
        (raw_indices total_frames frame_count).getLastD 0 < total_frames - 1 then
      set_last (raw_indices total_frames frame_count) (total_frames - 1)
    else
      raw_indices total_frames frame_count
  else if frames_to_extract_current total_frames frame_count = 1 then [0]
  else []

/-- Digits of n in base ten, most significant first, as characters; the
first argument is structural fuel (any fuel at least n gives the digits). -/
def decimal_digits_aux : Nat → Nat → List Char
  | 0, _ => []
  | _ + 1, 0 => []
  | fuel + 1, n + 1 =>
    decimal_digits_aux fuel ((n + 1) / 10) ++ [Char.ofNat (48 + (n + 1) % 10)]

/-- Decimal rendering of a natural number, as Python str would produce. -/
def decimal_string (n : Nat) : String :=
  if n = 0 then "0" else String.mk (decimal_digits_aux n n)

/-- Python format {n:03d}: decimal rendering left-padded with zeros to at
least three characters (source line 109). -/
def pad3 (n : Nat) : String :=
  if (decimal_string n).length < 3 then
    String.mk (List.replicate (3 - (decimal_string n).length) '0') ++ decimal_string n
  else decimal_string n

/-- The save loop of source lines 102-113: for each enumerated frame
position, if the read succeeds, save an image named
{video_basename}_frame_{i+1:03d}.jpg.  read_ok models cap.read success at a
given frame position; the returned list is the saved file names in order. -/
def save_loop (video_name : String) (read_ok : Nat → Bool) : Nat → List Nat → List String
  | _, [] => []
  | i, pos :: rest =>
    if read_ok pos then
      (video_name ++ "_frame_" ++ pad3 (i + 1) ++ ".jpg") ::
        save_loop video_name read_ok (i + 1) rest
    else
      save_loop video_name read_ok (i + 1) rest

lemma set_last_length (l : List Nat) (v : Nat) : (set_last l v).length = l.length := by
  induction l with
  | nil => rfl
  | cons x xs ih =>
    cases xs with
    | nil => rfl
    | cons y ys => simp only [set_last, List.length_cons] at *; omega

lemma getLastD_set_last : ∀ (l : List Nat) (v d : Nat), l ≠ [] →
    (set_last l v).getLastD d = v
  | [], _, _, h => absurd rfl h
  | [_], _, _, _ => rfl
  | x :: y :: ys, v, d, _ => by
    rw [set_last, List.getLastD_cons]
    exact getLastD_set_last (y :: ys) v x (by simp)

lemma mem_set_last {l : List Nat} {v x : Nat} (hx : x ∈ set_last l v) : x ∈ l ∨ x = v := by
  induction l with
  | nil => simp [set_last] at hx
  | cons a xs ih =>
    cases xs with
    | nil =>
      simp only [set_last, List.mem_singleton] at hx
      exact Or.inr hx
    | cons y ys =>
      rcases List.mem_cons.mp hx with rfl | hx
      · exact Or.inl (List.mem_cons_self _ _)
      · rcases ih hx with h | h
        · exact Or.inl (List.mem_cons_of_mem _ h)
        · exact Or.inr h

lemma sorted_set_last {l : List Nat} {v : Nat} (hs : l.Sorted (· ≤ ·))
    (hv : ∀ x ∈ l, x ≤ v) : (set_last l v).Sorted (· ≤ ·) := by
  induction l with
  | nil => exact hs
  | cons x xs ih =>
    cases xs with
    | nil => simp [set_last, List.Sorted]
    | cons y ys =>
      rw [List.sorted_cons] at hs
      rw [set_last, List.sorted_cons]
      refine ⟨?_, ih hs.2 fun z hz => hv z (List.mem_cons_of_mem _ hz)⟩
      intro b hb
      rcases mem_set_last hb with h | rfl
      · exact hs.1 b h
      · exact hv x (List.mem_cons_self _ _)

lemma getLastD_mem {l : List Nat} (h : l ≠ []) (d : Nat) : l.getLastD d ∈ l := by
  induction l with
  | nil => exact absurd rfl h
  | cons x xs ih =>
    cases xs with
    | nil => simp
    | cons y ys => simpa using Or.inr (ih (by simp))

lemma save_loop_length_all (video_name : String) (read_ok : Nat → Bool)
    (hok : ∀ p, read_ok p = true) : ∀ i l, (save_loop video_name read_ok i l).length = l.length := by
  intro i l
  induction l generalizing i with
  | nil => rfl
  | cons pos rest ih => simp [save_loop, hok pos, ih]

lemma raw_indices_length (total_frames frame_count : Nat) (hle : frame_count ≤ total_frames) :
    (raw_indices total_frames frame_count).length = frame_count := by
  simp [raw_indices, frames_to_extract_current, Nat.not_lt.mpr hle]

lemma raw_indices_le (total_frames frame_count : Nat) :
    ∀ x ∈ raw_indices total_frames frame_count, x ≤ total_frames - 1 := by
  intro x hx
  simp only [raw_indices, List.mem_map, List.mem_range] at hx
  obtain ⟨i, _, rfl⟩ := hx
  exact min_le_right _ _

lemma raw_indices_sorted (total_frames frame_count : Nat) :
    (raw_indices total_frames frame_count).Sorted (· ≤ ·) := by
  apply List.Pairwise.map
  · intro a b hab
    exact min_le_min (Nat.mul_le_mul (le_of_lt hab) le_rfl) le_rfl
  · exact List.pairwise_lt_range _

/-- Claim C3 (amended): for a video with total frames at least the requested
count and the requested count at least two, with all per-frame reads
succeeding, the extractor saves exactly the requested number of frames, the
sampled indices are non-decreasing, and the last index is total_frames - 1. -/
theorem c3_extractor_spacing (total_frames frame_count : Nat)
    (video_name : String) (read_ok : Nat → Bool)
    (h2 : 2 ≤ frame_count) (hle : frame_count ≤ total_frames)
    (hok : ∀ p, read_ok p = true) :
    (frame_indices total_frames frame_count).length = frame_count
    ∧ (save_loop video_name read_ok 0 (frame_indices total_frames frame_count)).length
        = frame_count
    ∧ (frame_indices total_frames frame_count).Sorted (· ≤ ·)
    ∧ (frame_indices total_frames frame_count).getLastD 0 = total_frames - 1 := by
  have hfe : frames_to_extract_current total_frames frame_count = frame_count :=
    if_neg (Nat.not_lt.mpr hle)
  have h1 : 1 < frames_to_extract_current total_frames frame_count := by omega
  have hlen : (raw_indices total_frames frame_count).length = frame_count :=
    raw_indices_length _ _ hle
  have hne : raw_indices total_frames frame_count ≠ [] := by
    intro h; rw [h] at hlen; simp at hlen; omega
  unfold frame_indices
  rw [if_pos h1]
  by_cases hfix : 1 < total_frames ∧
      (raw_indices total_frames frame_count).getLastD 0 < total_frames - 1
  · rw [if_pos hfix]
    refine ⟨?_, ?_, ?_, ?_⟩
    · rw [set_last_length, hlen]
    · rw [save_loop_length_all _ _ hok, set_last_length, hlen]
    · exact sorted_set_last (raw_indices_sorted _ _) (raw_indices_le _ _)
    · exact getLastD_set_last _ _ _ hne
  · rw [if_neg hfix]
    have hlast_le : (raw_indices total_frames frame_count).getLastD 0 ≤ total_frames - 1 :=
      raw_indices_le _ _ _ (getLastD_mem hne 0)
    have ht : 1 < total_frames := by omega
    have hlast : (raw_indices total_frames frame_count).getLastD 0 = total_frames - 1 := by
      rcases not_and_or.mp hfix with h | h
      · omega
      · omega
    exact ⟨hlen, by rw [save_loop_length_all _ _ hok, hlen], raw_indices_sorted _ _, hlast⟩

/-- Claim C3 witness: at total_frames = 10, frame_count = 4 the amended
claim holds concretely. -/
theorem c3_extractor_spacing_witness :
    2 ≤ 4 ∧ 4 ≤ 10 ∧ (frame_indices 10 4).length = 4
    ∧ (frame_indices 10 4).getLastD 0 = 10 - 1 :=
  ⟨by decide, by decide,
    (c3_extractor_spacing 10 4 "v" (fun _ => true) (by decide) (by decide) fun _ => rfl).1,
    (c3_extractor_spacing 10 4 "v" (fun _ => true) (by decide) (by decide) fun _ => rfl).2.2.2⟩

/-- Claim C3 counterexample: with total_frames = 2 and requested count 1
(total at least requested, reads succeeding), the extractor samples exactly
[0]; the last sampled index is 0, not total_frames - 1 = 1, so the claim as
stated fails. -/
theorem c3_counterexample :
    1 ≤ 2 ∧ frame_indices 2 1 = [0]
    ∧ (save_loop "v" (fun _ => true) 0 (frame_indices 2 1)).length = 1
    ∧ (frame_indices 2 1).getLastD 0 ≠ 2 - 1 := by decide

/-- Claim C9: when the requested frame count is 1 (or the video has exactly
one frame), the sampled index list is exactly [0], and the final frame is
sampled only when total_frames = 1. -/
theorem c9_single_frame_request (total_frames frame_count : Nat)
    (h1 : 1 ≤ total_frames)
    (hc : frame_count = 1 ∨ (total_frames = 1 ∧ 1 ≤ frame_count)) :
    frame_indices total_frames frame_count = [0]
    ∧ ((total_frames - 1) ∈ frame_indices total_frames frame_count ↔ total_frames = 1) := by
  have hfe : frames_to_extract_current total_frames frame_count = 1 := by
    unfold frames_to_extract_current
    rcases hc with rfl | ⟨rfl, hfc⟩
    · rw [if_neg (by omega)]
    · split <;> omega
  have heq : frame_indices total_frames frame_count = [0] := by
    unfold frame_indices
    rw [hfe]
    norm_num
  refine ⟨heq, ?_⟩
  rw [heq]
  simp only [List.mem_singleton]
  omega

/-- Claim C9 witness: a three-frame video with one frame requested samples
only index 0 and does not include the final frame. -/
theorem c9_single_frame_request_witness :
    frame_indices 3 1 = [0] ∧ ((3 - 1) ∈ frame_indices 3 1 ↔ 3 = 1) :=
  c9_single_frame_request 3 1 (by decide) (Or.inl rfl)

lemma decimal_digits_aux_length :
    ∀ fuel n k, n < 10 ^ k → (decimal_digits_aux fuel n).length ≤ k := by
  intro fuel
  induction fuel with
  | zero => intro n k _; simp [decimal_digits_aux]
  | succ fuel ih =>
    intro n k hk
    match n with
    | 0 => simp [decimal_digits_aux]
    | m + 1 =>
      cases k with
      | zero => omega
      | succ k =>
        have hdiv : (m + 1) / 10 < 10 ^ k := by
          rw [Nat.div_lt_iff_lt_mul (by norm_num)]
          calc m + 1 < 10 ^ (k + 1) := hk
            _ = 10 ^ k * 10 := by ring
        have := ih ((m + 1) / 10) k hdiv
        simp only [decimal_digits_aux, List.length_append, List.length_singleton]
        omega

lemma pad3_length (n : Nat) : (pad3 n).length = max 3 (decimal_string n).length := by
  unfold pad3
  split
  · next h =>
    rw [String.length_append]
    have : (String.mk (List.replicate (3 - (decimal_string n).length) '0')).length
        = 3 - (decimal_string n).length := by
      show (List.replicate (3 - (decimal_string n).length) '0').length = _
      rw [List.length_replicate]
    omega
  · next h => omega

lemma decimal_string_length_le (n : Nat) (h : n < 1000) : (decimal_string n).length ≤ 3 := by
  unfold decimal_string
  split
  · decide
  · have := decimal_digits_aux_length n n 3 (by norm_num; omega)
    simpa [String.length] using this

lemma save_loop_mem (video_name : String) (read_ok : Nat → Bool) :
    ∀ idxs i f, f ∈ save_loop video_name read_ok i idxs →
      ∃ k, k < idxs.length
        ∧ f = video_name ++ "_frame_" ++ pad3 (i + k + 1) ++ ".jpg" := by
  intro idxs
  induction idxs with
  | nil => intro i f hf; simp [save_loop] at hf
  | cons pos rest ih =>
    intro i f hf
    rw [save_loop] at hf
    by_cases hr : read_ok pos
    · rw [if_pos hr] at hf
      rcases List.mem_cons.mp hf with rfl | hf
      · exact ⟨0, by simp, rfl⟩
      · obtain ⟨k, hk, rfl⟩ := ih (i + 1) f hf
        refine ⟨k + 1, by simp [hk], ?_⟩
        rw [show i + (k + 1) + 1 = i + 1 + k + 1 from by omega]
    · rw [if_neg hr] at hf
      obtain ⟨k, hk, rfl⟩ := ih (i + 1) f hf
      refine ⟨k + 1, by simp [hk], ?_⟩
      rw [show i + (k + 1) + 1 = i + 1 + k + 1 from by omega]

/-- Claim C7: every file name produced by the save loop has the form
{video_basename}_frame_{NNN}.jpg where NNN is the one-indexed position of
the frame in the sampled sequence, zero-padded to (at least) three digits,
and exactly three digits while the position is below 1000. -/
theorem c7_saved_filenames (video_name : String) (read_ok : Nat → Bool)
    (idxs : List Nat) (f : String)
    (hf : f ∈ save_loop video_name read_ok 0 idxs) :
    ∃ k, k < idxs.length
      ∧ f = video_name ++ "_frame_" ++ pad3 (k + 1) ++ ".jpg"
      ∧ 3 ≤ (pad3 (k + 1)).length
      ∧ (k + 1 < 1000 → (pad3 (k + 1)).length = 3) := by
  obtain ⟨k, hk, rfl⟩ := save_loop_mem video_name read_ok idxs 0 f hf
  refine ⟨k, hk, by rw [Nat.zero_add], ?_, ?_⟩
  · rw [pad3_length]; exact le_max_left _ _
  · intro hlt
    rw [pad3_length]
    exact Nat.max_eq_left (decimal_string_length_le _ hlt)

/-- Claim C7 witness: the single saved file for a one-index sample is
v_frame_001.jpg and satisfies the naming property. -/
theorem c7_saved_filenames_witness :
    ("v_frame_001.jpg" ∈ save_loop "v" (fun _ => true) 0 [5])
    ∧ ∃ k, k < ([5] : List Nat).length
        ∧ "v_frame_001.jpg" = "v" ++ "_frame_" ++ pad3 (k + 1) ++ ".jpg"
        ∧ 3 ≤ (pad3 (k + 1)).length
        ∧ (k + 1 < 1000 → (pad3 (k + 1)).length = 3) :=
  ⟨by decide, c7_saved_filenames "v" (fun _ => true) [5] _ (by decide)⟩

end FrameExtractor

namespace Calibrator

/-- Outcome of reading one image and running corner detection on it
(cv2.imread and cv2.findChessboardCorners are external collaborators, so
their per-image results are inputs of the model).  A readable image carries
the grayscale dimensions (width, height); a successful detection also
carries the detected 2-D corners. -/
inductive ImageOutcome
  | unreadable
  | notFound (shape : Nat × Nat)
  | found (shape : Nat × Nat) (corners : List (ℝ × ℝ))

/-- True exactly on successful detections. -/
def ImageOutcome.isFound : ImageOutcome → Bool
  | .found _ _ => true
  | _ => false

/-- Number of successful detections (the successful_detections counter of
calibrator.py lines 57-76). -/
def countFound (outcomes : List ImageOutcome) : Nat :=
  (outcomes.filter fun o => o.isFound).length

/-- The 3-D template grid of calibrator.py lines 36-38: points (i, j, 0)
for j in range(gridH), i in range(gridW), scaled by the square size. -/
noncomputable def objp (gridW gridH : Nat) (squareSize : ℝ) : List (ℝ × ℝ × ℝ) :=
  ((List.range gridH).map fun j =>
    (List.range gridW).map fun i =>
      ((i : ℝ) * squareSize, (j : ℝ) * squareSize, (0 : ℝ))).flatten

/-- The objpoints accumulator (line 80): one copy of the template per
successful detection, in processing order. -/
noncomputable def collectObj (gridW gridH : Nat) (squareSize : ℝ)
    (outcomes : List ImageOutcome) : List (List (ℝ × ℝ × ℝ)) :=
  outcomes.filterMap fun o =>
    match o with
    | .found _ _ => some (objp gridW gridH squareSize)
    | _ => none

/-- The imgpoints accumulator (lines 83-86): the sub-pixel-refined 2-D
detections per successful image; cv2.cornerSubPix is the external refine
parameter. -/
def collectImg (refine : List (ℝ × ℝ) → List (ℝ × ℝ))
    (outcomes : List ImageOutcome) : List (List (ℝ × ℝ)) :=
  outcomes.filterMap fun o =>
    match o with
    | .found _ c => some (refine c)
    | _ => none

/-- image_shape of lines 68-69: dimensions of the first readable image. -/
def outcomeShape : ImageOutcome → Option (Nat × Nat)
  | .unreadable => none
  | .notFound s => some s
  | .found s _ => some s

def firstShape (outcomes : List ImageOutcome) : Option (Nat × Nat) :=
  outcomes.findSome? outcomeShape

/-- Result of the external cv2.calibrateCamera solve: the truthiness of its
first return value, the intrinsic matrix, distortion coefficients, and the
per-view rotation and translation vectors. -/
structure SolveResult where
  ret : Bool
  mtx : List (List ℝ)
  dist : List ℝ
  rvecs : List (List ℝ)
  tvecs : List (List ℝ)

/-- cv2.norm(a, b, cv2.NORM_L2) on two equally-shaped point arrays: the
square root of the sum over all coordinates of the squared differences. -/
noncomputable def cvNormL2 (a b : List (ℝ × ℝ)) : ℝ :=
  Real.sqrt (((a.zip b).map fun p => (p.1.1 - p.2.1) ^ 2 + (p.1.2 - p.2.2) ^ 2).sum)

/-- The per-image scalar of calibrator.py line 116:
cv2.norm(imgpoints[i], imgpoints2, cv2.NORM_L2) / len(imgpoints2). -/
noncomputable def perImageError (detected reprojected : List (ℝ × ℝ)) : ℝ :=
  cvNormL2 detected reprojected / (reprojected.length : ℝ)

/-- Lines 113-119: sum the per-image scalars and divide by the number of
images. -/
noncomputable def meanReprojError (pairs : List (List (ℝ × ℝ) × List (ℝ × ℝ))) : ℝ :=
  ((pairs.map fun p => perImageError p.1 p.2).sum) / (pairs.length : ℝ)

/-- What the spec claims the per-image quantity is: the mean of the
per-point Euclidean pixel distances.  Modelled from the spec text for
comparison against perImageError, which is what the code computes. -/
noncomputable def specPerImageMeanEuclid (detected reprojected : List (ℝ × ℝ)) : ℝ :=
  (((detected.zip reprojected).map fun p =>
      Real.sqrt ((p.1.1 - p.2.1) ^ 2 + (p.1.2 - p.2.2) ^ 2)).sum) / (detected.length : ℝ)

/-- The spec-side aggregate: uniform average over images of the per-image
mean Euclidean distances. -/
noncomputable def specMeanReprojError (pairs : List (List (ℝ × ℝ) × List (ℝ × ℝ))) : ℝ :=
  ((pairs.map fun p => specPerImageMeanEuclid p.1 p.2).sum) / (pairs.length : ℝ)

/-- The loop of lines 114-117 pairs each image's stored 2-D points with the
reprojection of its 3-D template through the solved parameters; the
projection (cv2.projectPoints) is the external project parameter. -/
noncomputable def reprojPairs
    (project : List (ℝ × ℝ × ℝ) → List ℝ → List ℝ → List (List ℝ) → List ℝ → List (ℝ × ℝ))
    (objpoints : List (List (ℝ × ℝ × ℝ))) (imgpoints : List (List (ℝ × ℝ)))
    (s : SolveResult) : List (List (ℝ × ℝ) × List (ℝ × ℝ)) :=
  (List.range objpoints.length).map fun i =>
    (imgpoints.getD i [],
     project (objpoints.getD i []) (s.rvecs.getD i []) (s.tvecs.getD i []) s.mtx s.dist)

/-- The archive written by np.savez at lines 131-137. -/
structure Archive where
  mtx : List (List ℝ)
  dist : List ℝ
  rvecs : List (List ℝ)
  tvecs : List (List ℝ)

def mkArchive (s : SolveResult) : Archive :=
  { mtx := s.mtx, dist := s.dist, rvecs := s.rvecs, tvecs := s.tvecs }

/-- np.savez persists the named arrays unchanged. -/
def savez (a : Archive) : Archive := a

/-- np.load on an archive written by np.savez yields the same arrays. -/
def loadArchive (a : Archive) : Archive := a

/-- The quality report of lines 122-127. -/
noncomputable def qualityMessage (e : ℝ) : String :=
  if e < 0.5 then "This is a high-quality calibration."
  else if e < 1.0 then "This is a decent calibration."
  else "This calibration quality is low. Consider retaking photos."

/-- Result of one calibrator run: either a reported error with no archive
written, or a saved archive together with the reported mean error and
quality message. -/
inductive CalibResult
  | error (msg : String)
  | saved (meanError : ℝ) (msg : String) (archive : Archive)

/-- The calibrate_camera pipeline of calibrator.py, with the external
collaborators (cornerSubPix, calibrateCamera, projectPoints) as function
parameters and the per-image read/detection outcomes as input. -/
noncomputable def calibrate_camera
    (refine : List (ℝ × ℝ) → List (ℝ × ℝ))
    (solver : List (List (ℝ × ℝ × ℝ)) → List (List (ℝ × ℝ)) → Option (Nat × Nat) → SolveResult)
    (project : List (ℝ × ℝ × ℝ) → List ℝ → List ℝ → List (List ℝ) → List ℝ → List (ℝ × ℝ))
    (gridW gridH : Nat) (squareSize : ℝ) (outcomes : List ImageOutcome) : CalibResult :=
  if outcomes.length = 0 then CalibResult.error "No images found"
  else if countFound outcomes = 0 then
    CalibResult.error "No images with successful detections. Cannot calibrate."
  else if (solver (collectObj gridW gridH squareSize outcomes)
      (collectImg refine outcomes) (firstShape outcomes)).ret = false then
    CalibResult.error "Calibration failed."
  else
    CalibResult.saved
      (meanReprojError (reprojPairs project (collectObj gridW gridH squareSize outcomes)
        (collectImg refine outcomes)
        (solver (collectObj gridW gridH squareSize outcomes)
          (collectImg refine outcomes) (firstShape outcomes))))
      (qualityMessage (meanReprojError (reprojPairs project
        (collectObj gridW gridH squareSize outcomes) (collectImg refine outcomes)
        (solver (collectObj gridW gridH squareSize outcomes)
          (collectImg refine outcomes) (firstShape outcomes)))))
      (savez (mkArchive (solver (collectObj gridW gridH squareSize outcomes)
        (collectImg refine outcomes) (firstShape outcomes))))

lemma collectObj_length (gridW gridH : Nat) (squareSize : ℝ) :
    ∀ outcomes, (collectObj gridW gridH squareSize outcomes).length = countFound outcomes := by
  intro outcomes
  induction outcomes with
  | nil => rfl
  | cons o rest ih =>
    cases o <;>
      simp [collectObj, countFound, ImageOutcome.isFound, List.filterMap_cons,
        List.filter_cons] at ih ⊢ <;>
      omega

/-- Claim C2: if zero images yield a successful corner detection, the
calibrator reports an error and terminates without writing any archive. -/
theorem c2_zero_detections
    (refine : List (ℝ × ℝ) → List (ℝ × ℝ))
    (solver : List (List (ℝ × ℝ × ℝ)) → List (List (ℝ × ℝ)) → Option (Nat × Nat) → SolveResult)
    (project : List (ℝ × ℝ × ℝ) → List ℝ → List ℝ → List (List ℝ) → List ℝ → List (ℝ × ℝ))
    (gridW gridH : Nat) (squareSize : ℝ) (outcomes : List ImageOutcome)
    (h : countFound outcomes = 0) :
    ∃ msg, calibrate_camera refine solver project gridW gridH squareSize outcomes
      = CalibResult.error msg := by
  unfold calibrate_camera
  by_cases he : outcomes.length = 0
  · rw [if_pos he]; exact ⟨_, rfl⟩
  · rw [if_neg he, if_pos h]; exact ⟨_, rfl⟩

/-- Claim C2 witness: a run whose single image is unreadable produces a
reported error and no archive. -/
theorem c2_zero_detections_witness :
    countFound [ImageOutcome.unreadable] = 0
    ∧ ∃ msg, calibrate_camera (fun c => c) (fun _ _ _ => ⟨true, [], [], [], []⟩)
        (fun _ _ _ _ _ => []) 9 13 1.8 [ImageOutcome.unreadable] = CalibResult.error msg :=
  ⟨rfl, c2_zero_detections _ _ _ _ _ _ _ rfl⟩

/-- Claim C1 (amended): the reported mean reprojection error is the uniform
unweighted average over the images of the per-image scalars, each per-image
scalar being the L2 norm of all stacked coordinate differences divided by
the image's point count (not the mean of the per-point Euclidean
distances), and every such scalar and the mean are non-negative. -/
theorem c1_mean_error_aggregation (pairs : List (List (ℝ × ℝ) × List (ℝ × ℝ)))
    (h : 1 ≤ pairs.length) :
    meanReprojError pairs
        = ((pairs.map fun p => perImageError p.1 p.2).sum) / (pairs.length : ℝ)
    ∧ (∀ p ∈ pairs, 0 ≤ perImageError p.1 p.2)
    ∧ 0 ≤ meanReprojError pairs := by
  have hnn : ∀ p ∈ pairs, 0 ≤ perImageError p.1 p.2 := by
    intro p _
    exact div_nonneg (Real.sqrt_nonneg _) (Nat.cast_nonneg _)
  refine ⟨rfl, hnn, ?_⟩
  unfold meanReprojError
  refine div_nonneg (List.sum_nonneg ?_) (Nat.cast_nonneg _)
  intro x hx
  obtain ⟨p, hp, rfl⟩ := List.mem_map.mp hx
  exact hnn p hp

/-- Claim C1 witness: for a single image pair the aggregation equality and
non-negativity hold concretely. -/
theorem c1_mean_error_aggregation_witness :
    1 ≤ ([(([] : List (ℝ × ℝ)), ([] : List (ℝ × ℝ)))]).length
    ∧ 0 ≤ meanReprojError [(([] : List (ℝ × ℝ)), ([] : List (ℝ × ℝ)))] :=
  ⟨by decide, (c1_mean_error_aggregation _ (by decide)).2.2⟩

/-- Claim C1 counterexample: for one image with two points at Euclidean
distances 3 and 4 from their reprojections, the code's mean error is
sqrt(9+16)/2 = 2.5 while the mean Euclidean pixel distance of the claim is
(3+4)/2 = 3.5, so the reported value does not equal the average of
per-image mean Euclidean distances. -/
theorem c1_counterexample :
    meanReprojError [([((3:ℝ), 0), (0, 4)], [((0:ℝ), 0), (0, 0)])]
      ≠ specMeanReprojError [([((3:ℝ), 0), (0, 4)], [((0:ℝ), 0), (0, 0)])] := by
  have hcv : cvNormL2 [((3:ℝ), 0), (0, 4)] [((0:ℝ), 0), (0, 0)] = 5 := by
    unfold cvNormL2
    simp only [List.zip_cons_cons, List.zip_nil_right, List.map_cons, List.map_nil,
      List.sum_cons, List.sum_nil]
    norm_num
    rw [show (25:ℝ) = 5 ^ 2 by norm_num]
    exact Real.sqrt_sq (by norm_num)
  have hper : perImageError [((3:ℝ), 0), (0, 4)] [((0:ℝ), 0), (0, 0)] = 5 / 2 := by
    unfold perImageError
    rw [hcv]
    norm_num
  have hspec : specPerImageMeanEuclid [((3:ℝ), 0), (0, 4)] [((0:ℝ), 0), (0, 0)] = 7 / 2 := by
    unfold specPerImageMeanEuclid
    simp only [List.zip_cons_cons, List.zip_nil_right, List.map_cons, List.map_nil,
      List.sum_cons, List.sum_nil, List.length_cons, List.length_nil]
    norm_num
    rw [show (9:ℝ) = 3 ^ 2 by norm_num, show (16:ℝ) = 4 ^ 2 by norm_num,
      Real.sqrt_sq (by norm_num : (0:ℝ) ≤ 3), Real.sqrt_sq (by norm_num : (0:ℝ) ≤ 4)]
    norm_num
  unfold meanReprojError specMeanReprojError
  simp only [List.map_cons, List.map_nil, List.sum_cons, List.sum_nil,
    List.length_cons, List.length_nil]
  rw [hper, hspec]
  norm_num

/-- Claim C4: when at least one detection succeeded and the solver (under
its documented contract: one rotation and one translation vector of length
3 per input view, a 3 by 3 intrinsic matrix, 5 distortion coefficients)
reports success, the run saves an archive whose reload yields exactly
countFound rotation and translation vectors and arrays of the documented
shapes. -/
theorem c4_archive_shapes
    (refine : List (ℝ × ℝ) → List (ℝ × ℝ))
    (solver : List (List (ℝ × ℝ × ℝ)) → List (List (ℝ × ℝ)) → Option (Nat × Nat) → SolveResult)
    (project : List (ℝ × ℝ × ℝ) → List ℝ → List ℝ → List (List ℝ) → List ℝ → List (ℝ × ℝ))
    (gridW gridH : Nat) (squareSize : ℝ) (outcomes : List ImageOutcome)
    (sres : SolveResult)
    (hs : sres = solver (collectObj gridW gridH squareSize outcomes)
      (collectImg refine outcomes) (firstShape outcomes))
    (h0 : countFound outcomes ≠ 0)
    (hret : sres.ret = true)
    (hrv : sres.rvecs.length = (collectObj gridW gridH squareSize outcomes).length)
    (htv : sres.tvecs.length = (collectObj gridW gridH squareSize outcomes).length)
    (hrv3 : ∀ v ∈ sres.rvecs, v.length = 3)
    (htv3 : ∀ v ∈ sres.tvecs, v.length = 3)
    (hm : sres.mtx.length = 3)
    (hm3 : ∀ r ∈ sres.mtx, r.length = 3)
    (hd : sres.dist.length = 5) :
    ∃ e a, calibrate_camera refine solver project gridW gridH squareSize outcomes
        = CalibResult.saved e (qualityMessage e) a
      ∧ (loadArchive (savez a)).rvecs.length = countFound outcomes
      ∧ (loadArchive (savez a)).tvecs.length = countFound outcomes
      ∧ (∀ v ∈ (loadArchive (savez a)).rvecs, v.length = 3)
      ∧ (∀ v ∈ (loadArchive (savez a)).tvecs, v.length = 3)
      ∧ (loadArchive (savez a)).mtx.length = 3
      ∧ (∀ r ∈ (loadArchive (savez a)).mtx, r.length = 3)
      ∧ (loadArchive (savez a)).dist.length = 5 := by
  have hne : ¬ outcomes.length = 0 := by
    intro h
    cases outcomes with
    | nil => exact h0 rfl
    | cons a l => simp at h
  unfold calibrate_camera
  rw [if_neg hne, if_neg h0, ← hs, if_neg (by rw [hret]; simp)]
  refine ⟨_, _, rfl, ?_, ?_, hrv3, htv3, hm, hm3, hd⟩
  · show sres.rvecs.length = countFound outcomes
    rw [hrv, collectObj_length]
  · show sres.tvecs.length = countFound outcomes
    rw [htv, collectObj_length]

/-- Claim C4 witness: one successful detection together with a contract-
conforming solver yields a saved archive with one rotation vector, one
translation vector, a 3 by 3 matrix and 5 distortion coefficients. -/
theorem c4_archive_shapes_witness :
    ∃ e a, calibrate_camera (fun c => c)
        (fun _ _ _ => ⟨true, [[1, 0, 0], [0, 1, 0], [0, 0, 1]], [0, 0, 0, 0, 0],
          [[0, 0, 0]], [[0, 0, 0]]⟩)
        (fun _ _ _ _ _ => []) 1 1 1 [ImageOutcome.found (2, 2) [((0:ℝ), 0)]]
        = CalibResult.saved e (qualityMessage e) a
      ∧ (loadArchive (savez a)).rvecs.length = countFound [ImageOutcome.found (2, 2) [((0:ℝ), 0)]]
      ∧ (loadArchive (savez a)).tvecs.length = countFound [ImageOutcome.found (2, 2) [((0:ℝ), 0)]]
      ∧ (∀ v ∈ (loadArchive (savez a)).rvecs, v.length = 3)
      ∧ (∀ v ∈ (loadArchive (savez a)).tvecs, v.length = 3)
      ∧ (loadArchive (savez a)).mtx.length = 3
      ∧ (∀ r ∈ (loadArchive (savez a)).mtx, r.length = 3)
      ∧ (loadArchive (savez a)).dist.length = 5 :=
  c4_archive_shapes _ _ _ 1 1 1 _ _ rfl (by decide) rfl rfl rfl
    (by simp) (by simp) rfl (by simp) rfl

/-- Claim C6: the quality classification thresholds (below 0.5: high
quality; below 1.0: decent; otherwise low) select only the printed message;
whenever the run reaches the classification step the archive is written,
and the written archive is determined by the solver output alone,
independently of which bucket the mean error falls into. -/
theorem c6_quality_advisory
    (refine : List (ℝ × ℝ) → List (ℝ × ℝ))
    (solver : List (List (ℝ × ℝ × ℝ)) → List (List (ℝ × ℝ)) → Option (Nat × Nat) → SolveResult)
    (project : List (ℝ × ℝ × ℝ) → List ℝ → List ℝ → List (List ℝ) → List ℝ → List (ℝ × ℝ))
    (gridW gridH : Nat) (squareSize : ℝ) (outcomes : List ImageOutcome)
    (h0 : countFound outcomes ≠ 0)
    (hret : (solver (collectObj gridW gridH squareSize outcomes)
      (collectImg refine outcomes) (firstShape outcomes)).ret = true) :
    (∃ e, calibrate_camera refine solver project gridW gridH squareSize outcomes
        = CalibResult.saved e (qualityMessage e)
            (savez (mkArchive (solver (collectObj gridW gridH squareSize outcomes)
              (collectImg refine outcomes) (firstShape outcomes)))))
    ∧ (∀ e : ℝ,
        (e < 0.5 → qualityMessage e = "This is a high-quality calibration.")
        ∧ (¬ e < 0.5 → e < 1.0 → qualityMessage e = "This is a decent calibration.")
        ∧ (¬ e < 0.5 → ¬ e < 1.0 →
            qualityMessage e = "This calibration quality is low. Consider retaking photos.")) := by
  have hne : ¬ outcomes.length = 0 := by
    intro h
    cases outcomes with
    | nil => exact h0 rfl
    | cons a l => simp at h
  constructor
  · unfold calibrate_camera
    rw [if_neg hne, if_neg h0, if_neg (by rw [hret]; simp)]
    exact ⟨_, rfl⟩
  · intro e
    refine ⟨fun h1 => ?_, fun h1 h2 => ?_, fun h1 h2 => ?_⟩
    · unfold qualityMessage; rw [if_pos h1]
    · unfold qualityMessage; rw [if_neg h1, if_pos h2]
    · unfold qualityMessage; rw [if_neg h1, if_neg h2]

/-- Claim C6 witness: with one successful detection and a successful solve,
the archive is saved and the three threshold buckets map to the three
messages. -/
theorem c6_quality_advisory_witness :
    (∃ e, calibrate_camera (fun c => c)
        (fun _ _ _ => ⟨true, [[1, 0, 0], [0, 1, 0], [0, 0, 1]], [0, 0, 0, 0, 0],
          [[0, 0, 0]], [[0, 0, 0]]⟩)
        (fun _ _ _ _ _ => []) 1 1 1 [ImageOutcome.found (2, 2) [((0:ℝ), 0)]]
        = CalibResult.saved e (qualityMessage e)
            (savez (mkArchive ((fun _ _ _ => (⟨true, [[1, 0, 0], [0, 1, 0], [0, 0, 1]],
                [0, 0, 0, 0, 0], [[0, 0, 0]], [[0, 0, 0]]⟩ : SolveResult))
              (collectObj 1 1 1 [ImageOutcome.found (2, 2) [((0:ℝ), 0)]])
              (collectImg (fun c => c) [ImageOutcome.found (2, 2) [((0:ℝ), 0)]])
              (firstShape [ImageOutcome.found (2, 2) [((0:ℝ), 0)]])))))
    ∧ (∀ e : ℝ,
        (e < 0.5 → qualityMessage e = "This is a high-quality calibration.")
        ∧ (¬ e < 0.5 → e < 1.0 → qualityMessage e = "This is a decent calibration.")
        ∧ (¬ e < 0.5 → ¬ e < 1.0 →
            qualityMessage e = "This calibration quality is low. Consider retaking photos.")) :=
  c6_quality_advisory _ _ _ 1 1 1 _ (by decide) rfl

end Calibrator

namespace CheckerGen

/-- The six fill colors used by checker_generator.py: the two base
checkerboard colors (dark red, dark blue) and the four corner marker colors
(gold, bright green, magenta, cyan). -/
inductive BoxColor
  | color1
  | color2
  | topLeft
  | topRight
  | bottomLeft
  | bottomRight
  deriving DecidableEq

/-- One reportlab centimeter in points: cm = 72 / 2.54 (exact rational). -/
def cmUnit : ℚ := 3600 / 127

/-- Per-axis box count of lines 34-42: floor of the drawable extent (page
dimension minus a margin on both sides) divided by the box edge length,
where the margin is marginCm centimeters and the edge is boxSizeMm
millimeters, both converted to points. -/
def numBoxesOf (pageDim boxSizeMm marginCm : ℚ) : ℤ :=
  Int.floor ((pageDim - 2 * (marginCm * cmUnit)) / (boxSizeMm / 10 * cmUnit))

/-- The color choice of lines 55-71 for the box at (row, col): the four
corner tests in source order (bottom-left, bottom-right, top-left,
top-right), then the checkerboard parity of row + col. -/
def boxColor (numX numY row col : Nat) : BoxColor :=
  if row = 0 ∧ col = 0 then BoxColor.bottomLeft
  else if row = 0 ∧ col = numX - 1 then BoxColor.bottomRight
  else if row = numY - 1 ∧ col = 0 then BoxColor.topLeft
  else if row = numY - 1 ∧ col = numX - 1 then BoxColor.topRight
  else if (row + col) % 2 = 0 then BoxColor.color1
  else BoxColor.color2

/-- The nested drawing loop of lines 53-80: one rectangle per (row, col) of
the grid, tagged with its fill color. -/
def renderedBoxes (numX numY : Nat) : List (Nat × Nat × BoxColor) :=
  ((List.range numY).map fun row =>
    (List.range numX).map fun col => (row, col, boxColor numX numY row col)).flatten

/-- create_checkered_pdf_with_margins: computes both per-axis counts from
the page dimensions, margin and box size, and renders the grid (the pdf
canvas itself is an external collaborator; the model records which boxes
are drawn with which colors). -/
def create_checkered_pdf_with_margins (pageW pageH boxSizeMm marginCm : ℚ) :
    List (Nat × Nat × BoxColor) :=
  renderedBoxes (numBoxesOf pageW boxSizeMm marginCm).toNat
    (numBoxesOf pageH boxSizeMm marginCm).toNat

/-- Whether a marker color occurs among the rendered boxes, and how many of
the four marker colors occur at all. -/
def distinctMarkersUsed (boxes : List (Nat × Nat × BoxColor)) : Nat :=
  (([BoxColor.topLeft, BoxColor.topRight, BoxColor.bottomLeft, BoxColor.bottomRight]).filter
    fun c => boxes.any fun b => b.2.2 = c).length

lemma renderedBoxes_length (numX numY : Nat) :
    (renderedBoxes numX numY).length = numX * numY := by
  rw [renderedBoxes, List.length_flatten, List.map_map]
  simp only [Function.comp_def, List.length_map, List.length_range]
  rw [List.map_const', List.sum_replicate, List.length_range, smul_eq_mul, Nat.mul_comm]

lemma mem_renderedBoxes {numX numY : Nat} {b : Nat × Nat × BoxColor}
    (hb : b ∈ renderedBoxes numX numY) :
    b.1 < numY ∧ b.2.1 < numX ∧ b.2.2 = boxColor numX numY b.1 b.2.1 := by
  simp only [renderedBoxes, List.mem_flatten, List.mem_map, List.mem_range] at hb
  obtain ⟨l, ⟨row, hrow, rfl⟩, hbl⟩ := hb
  obtain ⟨col, hcol, rfl⟩ := List.mem_map.mp hbl
  exact ⟨hrow, List.mem_range.mp hcol, rfl⟩

lemma boxColor_spec (numX numY row col : Nat) :
    (¬ ((row = 0 ∨ row = numY - 1) ∧ (col = 0 ∨ col = numX - 1)) →
      boxColor numX numY row col
        = if (row + col) % 2 = 0 then BoxColor.color1 else BoxColor.color2)
    ∧ (((row = 0 ∨ row = numY - 1) ∧ (col = 0 ∨ col = numX - 1)) →
      boxColor numX numY row col ≠ BoxColor.color1
      ∧ boxColor numX numY row col ≠ BoxColor.color2) := by
  unfold boxColor
  constructor
  · intro h
    rw [if_neg (by tauto), if_neg (by tauto), if_neg (by tauto), if_neg (by tauto)]
  · intro h
    split_ifs with h1 h2 h3 h4 h5
    · exact ⟨by decide, by decide⟩
    · exact ⟨by decide, by decide⟩
    · exact ⟨by decide, by decide⟩
    · exact ⟨by decide, by decide⟩
    · exfalso; tauto
    · exfalso; tauto

/-- Claim C5: the generator renders floor((page_dimension - 2M) / S) boxes
along each axis (the total count being their product), colors every
non-corner box by the parity of row + col alternating between the two base
colors, and never fills a designated corner box with either base color.
Stated for any page dimensions, positive box edge and margins that fit on
the page, the edge and margin given in the source units (mm and cm). -/
theorem c5_generator_grid (pageW pageH boxSizeMm marginCm : ℚ)
    (hS : 0 < boxSizeMm)
    (hW : 2 * (marginCm * cmUnit) ≤ pageW)
    (hH : 2 * (marginCm * cmUnit) ≤ pageH) :
    ((numBoxesOf pageW boxSizeMm marginCm).toNat : ℤ) = numBoxesOf pageW boxSizeMm marginCm
    ∧ ((numBoxesOf pageH boxSizeMm marginCm).toNat : ℤ) = numBoxesOf pageH boxSizeMm marginCm
    ∧ (create_checkered_pdf_with_margins pageW pageH boxSizeMm marginCm).length
        = (numBoxesOf pageW boxSizeMm marginCm).toNat
            * (numBoxesOf pageH boxSizeMm marginCm).toNat
    ∧ ∀ b ∈ create_checkered_pdf_with_margins pageW pageH boxSizeMm marginCm,
        (¬ ((b.1 = 0 ∨ b.1 = (numBoxesOf pageH boxSizeMm marginCm).toNat - 1)
            ∧ (b.2.1 = 0 ∨ b.2.1 = (numBoxesOf pageW boxSizeMm marginCm).toNat - 1)) →
          b.2.2 = if (b.1 + b.2.1) % 2 = 0 then BoxColor.color1 else BoxColor.color2)
        ∧ (((b.1 = 0 ∨ b.1 = (numBoxesOf pageH boxSizeMm marginCm).toNat - 1)
            ∧ (b.2.1 = 0 ∨ b.2.1 = (numBoxesOf pageW boxSizeMm marginCm).toNat - 1)) →
          b.2.2 ≠ BoxColor.color1 ∧ b.2.2 ≠ BoxColor.color2) := by
  have hcm : (0:ℚ) < cmUnit := by norm_num [cmUnit]
  have hSpos : (0:ℚ) < boxSizeMm / 10 * cmUnit := by positivity
  have hix : 0 ≤ numBoxesOf pageW boxSizeMm marginCm := by
    unfold numBoxesOf
    exact Int.floor_nonneg.mpr (div_nonneg (by linarith) (le_of_lt hSpos))
  have hiy : 0 ≤ numBoxesOf pageH boxSizeMm marginCm := by
    unfold numBoxesOf
    exact Int.floor_nonneg.mpr (div_nonneg (by linarith) (le_of_lt hSpos))
  refine ⟨Int.toNat_of_nonneg hix, Int.toNat_of_nonneg hiy, renderedBoxes_length _ _, ?_⟩
  intro b hb
  obtain ⟨hrow, hcol, hcolor⟩ := mem_renderedBoxes hb
  constructor
  · intro h
    rw [hcolor]
    exact (boxColor_spec _ _ _ _).1 h
  · intro h
    rw [hcolor]
    exact (boxColor_spec _ _ _ _).2 h

/-- Claim C5 witness: on a 600 by 800 point page with a 1 cm margin and
10 mm boxes the per-axis counts are 19 and 26 and the rendered grid has
19 * 26 boxes of the claimed colors. -/
theorem c5_generator_grid_witness :
    (0:ℚ) < 10
    ∧ (numBoxesOf 600 10 1).toNat = 19
    ∧ (numBoxesOf 800 10 1).toNat = 26
    ∧ (create_checkered_pdf_with_margins 600 800 10 1).length
        = (numBoxesOf 600 10 1).toNat * (numBoxesOf 800 10 1).toNat :=
  ⟨by norm_num, by norm_num [numBoxesOf, cmUnit]; rfl, by norm_num [numBoxesOf, cmUnit]; rfl,
    (c5_generator_grid 600 800 10 1 (by norm_num) (by norm_num [cmUnit])
      (by norm_num [cmUnit])).2.2.1⟩

lemma one_row_no_top (numX : Nat) :
    ∀ col, boxColor numX 1 0 col ≠ BoxColor.topLeft
      ∧ boxColor numX 1 0 col ≠ BoxColor.topRight := by
  intro col
  unfold boxColor
  by_cases hc0 : col = 0
  · subst hc0
    rw [if_pos ⟨rfl, rfl⟩]
    exact ⟨by decide, by decide⟩
  · by_cases hcn : col = numX - 1
    · rw [if_neg (by tauto), if_pos ⟨rfl, hcn⟩]
      exact ⟨by decide, by decide⟩
    · rw [if_neg (by tauto), if_neg (by tauto), if_neg (by tauto), if_neg (by tauto)]
      split_ifs <;> exact ⟨by decide, by decide⟩

lemma one_col_no_right (numY : Nat) :
    ∀ row, boxColor 1 numY row 0 ≠ BoxColor.topRight
      ∧ boxColor 1 numY row 0 ≠ BoxColor.bottomRight := by
  intro row
  unfold boxColor
  by_cases hr0 : row = 0
  · subst hr0
    rw [if_pos ⟨rfl, rfl⟩]
    exact ⟨by decide, by decide⟩
  · by_cases hrn : row = numY - 1
    · rw [if_neg (by tauto), if_neg (by tauto), if_pos ⟨hrn, rfl⟩]
      exact ⟨by decide, by decide⟩
    · rw [if_neg (by tauto), if_neg (by tauto), if_neg (by tauto), if_neg (by tauto)]
      split_ifs <;> exact ⟨by decide, by decide⟩

/-- Claim C10: the corner tests check bottom corners before top corners, so
a one-row grid colors its overlapping corner boxes with the bottom-left and
bottom-right markers (and a one-column grid with the left-side markers),
never uses the shadowed markers, and fewer than four distinct marker colors
appear on the page. -/
theorem c10_corner_precedence (numX numY : Nat) (hX : 1 ≤ numX) (hY : 1 ≤ numY) :
    (numY = 1 →
      boxColor numX numY 0 0 = BoxColor.bottomLeft
      ∧ (2 ≤ numX → boxColor numX numY 0 (numX - 1) = BoxColor.bottomRight)
      ∧ (∀ b ∈ renderedBoxes numX numY,
          b.2.2 ≠ BoxColor.topLeft ∧ b.2.2 ≠ BoxColor.topRight)
      ∧ distinctMarkersUsed (renderedBoxes numX numY) < 4)
    ∧ (numX = 1 →
      boxColor numX numY 0 0 = BoxColor.bottomLeft
      ∧ (2 ≤ numY → boxColor numX numY (numY - 1) 0 = BoxColor.topLeft)
      ∧ (∀ b ∈ renderedBoxes numX numY,
          b.2.2 ≠ BoxColor.topRight ∧ b.2.2 ≠ BoxColor.bottomRight)
      ∧ distinctMarkersUsed (renderedBoxes numX numY) < 4) := by
  constructor
  · rintro rfl
    have hall : ∀ b ∈ renderedBoxes numX 1,
        b.2.2 ≠ BoxColor.topLeft ∧ b.2.2 ≠ BoxColor.topRight := by
      intro b hb
      obtain ⟨h1, h2, h3⟩ := mem_renderedBoxes hb
      have hb1 : b.1 = 0 := by omega
      rw [h3, hb1]
      exact one_row_no_top numX b.2.1
    have hTL : ((renderedBoxes numX 1).any fun b => b.2.2 = BoxColor.topLeft) = false := by
      rw [List.any_eq_false]
      intro b hb
      simpa using (hall b hb).1
    have hTR : ((renderedBoxes numX 1).any fun b => b.2.2 = BoxColor.topRight) = false := by
      rw [List.any_eq_false]
      intro b hb
      simpa using (hall b hb).2
    refine ⟨?_, ?_, hall, ?_⟩
    · unfold boxColor
      rw [if_pos ⟨rfl, rfl⟩]
    · intro h2X
      unfold boxColor
      rw [if_neg (by omega), if_pos ⟨rfl, rfl⟩]
    · unfold distinctMarkersUsed
      simp only [List.filter_cons, List.filter_nil, hTL, hTR, Bool.false_eq_true, if_false]
      split_ifs <;> simp
  · rintro rfl
    have hall : ∀ b ∈ renderedBoxes 1 numY,
        b.2.2 ≠ BoxColor.topRight ∧ b.2.2 ≠ BoxColor.bottomRight := by
      intro b hb
      obtain ⟨h1, h2, h3⟩ := mem_renderedBoxes hb
      have hb2 : b.2.1 = 0 := by omega
      rw [h3, hb2]
      exact one_col_no_right numY b.1
    have hTR : ((renderedBoxes 1 numY).any fun b => b.2.2 = BoxColor.topRight) = false := by
      rw [List.any_eq_false]
      intro b hb
      simpa using (hall b hb).1
    have hBR : ((renderedBoxes 1 numY).any fun b => b.2.2 = BoxColor.bottomRight) = false := by
      rw [List.any_eq_false]
      intro b hb
      simpa using (hall b hb).2
    refine ⟨?_, ?_, hall, ?_⟩
    · unfold boxColor
      rw [if_pos ⟨rfl, rfl⟩]
    · intro h2Y
      unfold boxColor
      rw [if_neg (by omega), if_neg (by omega), if_pos ⟨rfl, rfl⟩]
    · unfold distinctMarkersUsed
      simp only [List.filter_cons, List.filter_nil, hTR, hBR, Bool.false_eq_true, if_false]
      split_ifs <;> simp

/-- Claim C10 witness: a 3 by 1 grid takes the bottom-left and bottom-right
markers on its overlapping corner boxes and shows fewer than four distinct
marker colors. -/
theorem c10_corner_precedence_witness :
    boxColor 3 1 0 0 = BoxColor.bottomLeft
    ∧ (2 ≤ 3 → boxColor 3 1 0 (3 - 1) = BoxColor.bottomRight)
    ∧ (∀ b ∈ renderedBoxes 3 1, b.2.2 ≠ BoxColor.topLeft ∧ b.2.2 ≠ BoxColor.topRight)
    ∧ distinctMarkersUsed (renderedBoxes 3 1) < 4 :=
  (c10_corner_precedence 3 1 (by decide) (by decide)).1 rfl

end CheckerGen

namespace Visualizer

/-- Result of processing one image in visualize_corners.py lines 87-112:
the name of the saved file, the corners drawn over it (none when detection
failed and the original image is saved), and the sub-pixel-refined corners
computed in the success branch (none when detection failed). -/
structure VisResult where
  outName : String
  overlay : Option (List (ℝ × ℝ))
  cornersRefined : Option (List (ℝ × ℝ))

/-- One iteration of the per-image loop: the detection result (external
cv2.findChessboardCorners) is the input; on success the refinement
(external cv2.cornerSubPix, the refine parameter) is computed and
cv2.drawChessboardCorners is called with the UNREFINED corners variable
(line 103), and the image is saved with the detected_ prefix; on failure
the original image is saved with the failed_ prefix. -/
def processImage (refine : List (ℝ × ℝ) → List (ℝ × ℝ)) (imgName : String)
    (detection : Option (List (ℝ × ℝ))) : VisResult :=
  match detection with
  | some corners =>
    { outName := "detected_" ++ imgName
      overlay := some corners
      cornersRefined := some (refine corners) }
  | none =>
    { outName := "failed_" ++ imgName
      overlay := none
      cornersRefined := none }

/-- Claim C8: on a successful detection the refinement is computed, but the
overlay drawn on the saved detected_-prefixed image uses the unrefined
detected corners; whenever refinement actually moves the corners, the drawn
overlay differs from the refined corners. -/
theorem c8_overlay_unrefined (refine : List (ℝ × ℝ) → List (ℝ × ℝ))
    (imgName : String) (corners : List (ℝ × ℝ)) :
    (processImage refine imgName (some corners)).outName = "detected_" ++ imgName
    ∧ (processImage refine imgName (some corners)).overlay = some corners
    ∧ (processImage refine imgName (some corners)).cornersRefined = some (refine corners)
    ∧ (refine corners ≠ corners →
        (processImage refine imgName (some corners)).overlay ≠ some (refine corners)) := by
  refine ⟨rfl, rfl, rfl, ?_⟩
  intro hne hcontra
  simp only [processImage, Option.some_inj] at hcontra
  exact hne hcontra.symm

/-- Claim C8 witness: with a refinement that moves the corners, the overlay
keeps the original detected corners and differs from the refined ones. -/
theorem c8_overlay_unrefined_witness :
    (processImage (fun l => ((1:ℝ), (1:ℝ)) :: l) "img.jpg" (some [])).overlay = some []
    ∧ (processImage (fun l => ((1:ℝ), (1:ℝ)) :: l) "img.jpg" (some [])).overlay
        ≠ some ((fun l => ((1:ℝ), (1:ℝ)) :: l) []) :=
  ⟨(c8_overlay_unrefined (fun l => ((1:ℝ), (1:ℝ)) :: l) "img.jpg" []).2.1,
    (c8_overlay_unrefined (fun l => ((1:ℝ), (1:ℝ)) :: l) "img.jpg" []).2.2.2 (by simp)⟩

end Visualizer
